import Mathlib

/-!
Verification of the quire logging library (logger engine in
src/src/quire.cpp + src/include/quire/quire.hpp, registry in
src/src/registry.cpp + src/include/quire/registry.hpp).

Strings are modelled as `List Char` (the C++ code operates on
NUL-terminated `char` buffers / `std::string`); `std::map` is modelled as
an association list whose lookup returns the unique entry for a key
(key uniqueness is maintained by the operations themselves, exactly as
`std::map` does).  Machine integers that are always non-negative in the
source (`unsigned level`, `std::size_t` lengths, the `int`
`log_levels_max_name_length` which starts at 0 and only grows by
`std::max`) are modelled as `Nat`.
-/

namespace Quire

/-- Output field tags: `enum class option_t` (include/quire/quire.hpp). -/
inductive option_t where
  | header
  | level
  | location
  | date
  | time
deriving DecidableEq, Repr

/-- Descriptor of one log level: `struct log_level_config_t`
(name, foreground color, background color). -/
structure log_level_config_t where
  name : List Char
  fg : List Char
  bg : List Char
deriving DecidableEq, Repr

/-- `std::map<unsigned, log_level_config_t>::find`, on the association-list
model of the map: returns the first (hence, with unique keys, the only)
descriptor stored for `level`. -/
def map_find (levels : List (Nat × log_level_config_t)) (level : Nat) :
    Option log_level_config_t :=
  match levels with
  | [] => none
  | kv :: rest => if kv.1 = level then some kv.2 else map_find rest level

/-- The logger state: the fields of `class logger_t`
(src/include/quire/quire.hpp).  The two sink pointers and the mutex are
not part of the functional state; an "emission" in this model is the
composed string `ss.str()` that `write_log_line` writes to the sinks. -/
structure logger_t where
  header : List Char
  min_level : Nat
  last_log_ended_with_newline : Bool
  enable_color : Bool
  configuration : List option_t
  separator : Char
  buffer : List Char
  log_levels : List (Nat × log_level_config_t)
  log_levels_max_name_length : Nat
deriving DecidableEq, Repr

namespace logger_t

/-- `logger_t::clear_log_levels` (src/src/quire.cpp:173-178). -/
def clear_log_levels (lg : logger_t) : logger_t :=
  { lg with log_levels := [], log_levels_max_name_length := 0 }

/-- `logger_t::add_or_update_log_level` (src/src/quire.cpp:180-204):
updates the descriptor in place when the level is present, inserts a new
entry otherwise, then raises the tracked maximum name length to at least
the new name's length (`std::max` with the previous value).  The C++
function returns `*this`; the model returns the updated state. -/
def add_or_update_log_level (lg : logger_t) (level : Nat)
    (name fg bg : List Char) : logger_t :=
  match map_find lg.log_levels level with
  | some _ =>
    { lg with
      log_levels := lg.log_levels.map
        (fun kv => if kv.1 = level then (kv.1, ⟨name, fg, bg⟩) else kv),
      log_levels_max_name_length :=
        max lg.log_levels_max_name_length name.length }
  | none =>
    { lg with
      log_levels := lg.log_levels ++ [(level, ⟨name, fg, bg⟩)],
      log_levels_max_name_length :=
        max lg.log_levels_max_name_length name.length }

end logger_t

/-- `quire::ansi::util::reset` ("\33[0m\033[49m" in src/src/quire.cpp:52). -/
def ansi_util_reset : List Char := "\x1b[0m\x1b[49m".data

/-- `quire::ansi::util::clearline` ("\33[2K"). -/
def ansi_util_clearline : List Char := "\x1b[2K".data

/-- `quire::ansi::fg::cyan`. -/
def fg_cyan : List Char := "\x1b[36m".data

/-- `quire::ansi::fg::bright_white`. -/
def fg_bright_white : List Char := "\x1b[37;1m".data

/-- `quire::ansi::fg::bright_yellow`. -/
def fg_bright_yellow : List Char := "\x1b[33;1m".data

/-- `quire::ansi::fg::red`. -/
def fg_red : List Char := "\x1b[31m".data

/-- `quire::ansi::fg::bright_red`. -/
def fg_bright_red : List Char := "\x1b[31;1m".data

namespace logger_t

/-- `logger_t::initialize_default_levels` (src/src/quire.cpp:133-140). -/
def initialize_default_levels (lg : logger_t) : logger_t :=
  ((((lg.add_or_update_log_level 0 "DEBUG".data fg_cyan ansi_util_reset
    ).add_or_update_log_level 1 "INFO".data fg_bright_white ansi_util_reset
    ).add_or_update_log_level 2 "WARNING".data fg_bright_yellow ansi_util_reset
    ).add_or_update_log_level 3 "ERROR".data fg_red ansi_util_reset
    ).add_or_update_log_level 4 "CRITICAL".data fg_bright_red ansi_util_reset

end logger_t

/-- `logger_t::get_default_configuation` (src/include/quire/quire.hpp). -/
def default_configuration : List option_t :=
  [option_t.header, option_t.level, option_t.time, option_t.location]

/-- The constructor `logger_t::logger_t(header, min_level, separator,
configuration)` (src/src/quire.cpp:94-110): empty buffer, colors enabled,
"last log ended with newline" initially true, then the five default
levels are registered. -/
def mk_logger (h : List Char) (minl : Nat) (sep : Char)
    (config : List option_t) : logger_t :=
  logger_t.initialize_default_levels
    { header := h
      min_level := minl
      last_log_ended_with_newline := true
      enable_color := true
      configuration := config
      separator := sep
      buffer := []
      log_levels := []
      log_levels_max_name_length := 0 }

/-- The line-splitting loop of `logger_t::write_log`
(src/src/quire.cpp:352-373): `acc` is the part of the current fragment
scanned so far (the text between `start` and the scan position).  Each
`'\n'` closes a fragment that includes the newline itself; at the end of
the buffer the remaining text, if non-empty, is one final fragment. -/
def split_go (s acc : List Char) : List (List Char) :=
  match s with
  | [] => if acc = [] then [] else [acc]
  | c :: rest =>
    if c = '\n' then (acc ++ [c]) :: split_go rest []
    else split_go rest (acc ++ [c])

/-- The list of line fragments `write_log` passes to `write_log_line`. -/
def split_fragments (s : List Char) : List (List Char) := split_go s []

/-- `std::left << std::setw(w)` applied to a string: pad on the right with
spaces up to width `w` (no truncation when the string is longer). -/
def setw_left (w : Nat) (s : List Char) : List Char :=
  s ++ List.replicate (w - s.length) ' '

/-- The prefix-building loop inside `logger_t::write_log_line`
(src/src/quire.cpp:381-395): iterate the configuration list in order and
append, per tag, the field followed by a space, the separator and a
space; the `header` tag renders only when the header is non-empty and the
`location` tag only when the location string is non-empty.  The current
date and time strings (`__get_date()`/`__get_time()`) are inputs of the
model. -/
def build_decoration (lg : logger_t) (level : log_level_config_t)
    (location date time : List Char) : List Char :=
  lg.configuration.foldl
    (fun ss opt =>
      if opt = option_t.header ∧ lg.header ≠ [] then
        ss ++ lg.header ++ [' ', lg.separator, ' ']
      else if opt = option_t.level then
        ss ++ setw_left lg.log_levels_max_name_length level.name
           ++ [' ', lg.separator, ' ']
      else if opt = option_t.date then
        ss ++ date ++ [' ', lg.separator, ' ']
      else if opt = option_t.time then
        ss ++ time ++ [' ', lg.separator, ' ']
      else if opt = option_t.location ∧ location ≠ [] then
        ss ++ setw_left 16 location ++ [' ', lg.separator, ' ']
      else ss)
    []

/-- What one configuration tag contributes to the prefix.  This is the
specification-side description ("each tag renders its field followed by
the separator character and a space, except `location` ... and `header`
...", spec section 4.3); claim C7 relates `build_decoration` to it. -/
def render_field (lg : logger_t) (level : log_level_config_t)
    (location date time : List Char) : option_t → List Char
  | option_t.header =>
    if lg.header ≠ [] then lg.header ++ [' ', lg.separator, ' '] else []
  | option_t.level =>
    setw_left lg.log_levels_max_name_length level.name
      ++ [' ', lg.separator, ' ']
  | option_t.date => date ++ [' ', lg.separator, ' ']
  | option_t.time => time ++ [' ', lg.separator, ' ']
  | option_t.location =>
    if location ≠ [] then setw_left 16 location ++ [' ', lg.separator, ' ']
    else []

/-- `logger_t::write_log_line` (src/src/quire.cpp:375-426): compose the
decorated prefix (only when the previous emission ended with a newline)
followed by the line content, and update the
`last_log_ended_with_newline` flag from the last character of a
non-empty line (`'\n'` or `'\r'`).  Returns the composed string
`ss.str()` — written verbatim to the file sink and, wrapped by
`console_render`, to the console sink — together with the new flag. -/
def write_log_line (lg : logger_t) (level : log_level_config_t)
    (location line date time : List Char) : List Char × Bool :=
  let ss := if lg.last_log_ended_with_newline then
      build_decoration lg level location date time
    else []
  if line = [] then (ss, lg.last_log_ended_with_newline)
  else (ss ++ line,
    (line.getLast? == some '\n') || (line.getLast? == some '\r'))

/-- What the console sink receives for one emission: the composed string,
wrapped in the level's background+foreground codes and followed by
reset+clear-line when color is enabled (src/src/quire.cpp:411-425). -/
def console_render (lg : logger_t) (level : log_level_config_t)
    (ss : List Char) : List Char :=
  if lg.enable_color then
    level.bg ++ level.fg ++ ss ++ ansi_util_reset ++ ansi_util_clearline
  else ss

/-- The body of `logger_t::write_log`: call `write_log_line` on each
fragment in order, threading the mutable `last_log_ended_with_newline`
flag through the logger state.  Returns the final state and the list of
emissions (one composed string per fragment). -/
def write_fragments (level : log_level_config_t)
    (location date time : List Char) :
    logger_t → List (List Char) → logger_t × List (List Char)
  | lg, [] => (lg, [])
  | lg, f :: fs =>
    let r := write_log_line lg level location f date time
    let step := write_fragments level location date time
      { lg with last_log_ended_with_newline := r.2 } fs
    (step.1, r.1 :: step.2)

/-- `logger_t::write_log` (src/src/quire.cpp:352-373): split the
formatted buffer into line fragments and emit each one. -/
def write_log (lg : logger_t) (level : log_level_config_t)
    (location date time : List Char) : logger_t × List (List Char) :=
  write_fragments level location date time lg (split_fragments lg.buffer)

/-- Outcome of the `vsnprintf` dry run for a non-empty format string:
either the rendered text (return value = its length, ≥ 0) or a negative
return value (encoding/render failure). -/
inductive vsnprintf_result where
  | ok (s : List Char)
  | failure
deriving DecidableEq, Repr

/-- The template/argument input of a `log` call, abstracted to what
`format_message` can observe: a null or empty format string, or a
non-empty format string together with the outcome of rendering it. -/
inductive format_input where
  | empty_format
  | rendered (r : vsnprintf_result)
deriving DecidableEq, Repr

/-- `logger_t::format_message(char const *format, va_list args)`
(src/src/quire.cpp:271-308), the `char *` buffer revision: a null/empty
format empties the buffer (`buffer[0] = '\0'`); a rendered string of
positive length is stored (growing the backing storage as needed); a
zero-length rendering or a negative `vsnprintf` return leaves the buffer
unchanged (the `if (length > 0)` guard skips both the resize and the
final `vsnprintf`). -/
def format_message (lg : logger_t) (input : format_input) : logger_t :=
  match input with
  | format_input.empty_format => { lg with buffer := [] }
  | format_input.rendered (vsnprintf_result.ok s) =>
    if 0 < s.length then { lg with buffer := s } else lg
  | format_input.rendered vsnprintf_result.failure => lg

/-- `logger_t::format_message(const char *format, Args &&...args)`
(src/include/quire/quire.hpp:439-477), the `std::string` buffer
revision: a null/empty format clears the buffer; a successful render
stores the rendered text (the buffer is resized to the exact length);
a negative `snprintf` return clears the buffer. -/
def format_message_hpp (lg : logger_t) (input : format_input) : logger_t :=
  match input with
  | format_input.empty_format => { lg with buffer := [] }
  | format_input.rendered (vsnprintf_result.ok s) => { lg with buffer := s }
  | format_input.rendered vsnprintf_result.failure => { lg with buffer := [] }

/-- `logger_t::log(unsigned level, char const *format, ...)`
(src/src/quire.cpp:310-329): look the level up in the level map and, only
when a descriptor exists and `level >= min_level`, format the message and
emit it with an empty location; otherwise do nothing.  Returns the new
logger state and the list of emissions. -/
def log (lg : logger_t) (level : Nat) (input : format_input)
    (date time : List Char) : logger_t × List (List Char) :=
  match map_find lg.log_levels level with
  | some desc =>
    if lg.min_level ≤ level then
      write_log (format_message lg input) desc [] date time
    else (lg, [])
  | none => (lg, [])

/-- `__assemble_location(file, line)` (src/src/quire.cpp:86-92): the last
path component of `file` (`substr(find_last_of("/\\") + 1)`) followed by
`":"` and the decimal line number. -/
def assemble_location (file : List Char) (line : Int) : List Char :=
  (file.reverse.takeWhile (fun c => ¬(c = '/' ∨ c = '\\'))).reverse
    ++ ':' :: (toString line).data

/-- `logger_t::log(unsigned level, char const *file, int line, char const
*format, ...)` (src/src/quire.cpp:331-350): as `log`, but the location
string `basename(file):line` is passed to the emitter. -/
def log_loc (lg : logger_t) (level : Nat) (file : List Char) (line : Int)
    (input : format_input) (date time : List Char) :
    logger_t × List (List Char) :=
  match map_find lg.log_levels level with
  | some desc =>
    if lg.min_level ≤ level then
      write_log (format_message lg input) desc
        (assemble_location file line) date time
    else (lg, [])
  | none => (lg, [])

/-- The value a registry entry stores: the data
`registry_t::create(key, header, min_level, separator)` passes to the
`logger_t` constructor.  Only the header participates in the alignment
pass, but all three construction parameters are kept. -/
structure rlogger_t where
  header : List Char
  min_level : Nat
  separator : Char
deriving DecidableEq, Repr

/-- The registry's map `std::map<key_t, value_t> m_map`, as an
association list from keys to stored loggers (the claims under
consideration are independent of `std::map`'s iteration order). -/
abbrev reg_map := List (String × rlogger_t)

/-- `m_map.find(key)` on the association-list model. -/
def reg_find (m : reg_map) (k : String) : Option rlogger_t :=
  match m with
  | [] => none
  | kv :: rest => if kv.1 = k then some kv.2 else reg_find rest k

/-- `m_map.erase(it)`: remove the (unique) entry found for `k`. -/
def reg_erase (m : reg_map) (k : String) : reg_map :=
  match m with
  | [] => []
  | kv :: rest => if kv.1 = k then rest else kv :: reg_erase rest k

/-- `registry_t::create` (src/src/registry.cpp:39-54): throws
"already exists" when the key is present — before any mutation — and
otherwise constructs `logger_t(_header, _min_level, _separator)` and
inserts it.  The pair returns the call's outcome together with the
registry map after the call. -/
def reg_create (m : reg_map) (k : String) (h : List Char) (minl : Nat)
    (sep : Char) : Except String rlogger_t × reg_map :=
  match reg_find m k with
  | some _ =>
    (Except.error ("Logger `" ++ k ++ "` already exists."), m)
  | none =>
    (Except.ok ⟨h, minl, sep⟩, m ++ [(k, ⟨h, minl, sep⟩)])

/-- `registry_t::remove` (src/src/registry.cpp:56-67): throws
"does not exists" when the key is absent — before any mutation — and
otherwise erases the entry and returns the removed logger. -/
def reg_remove (m : reg_map) (k : String) :
    Except String rlogger_t × reg_map :=
  match reg_find m k with
  | some lg => (Except.ok lg, reg_erase m k)
  | none =>
    (Except.error ("Logger `" ++ k ++ "` does not exists."), m)

/-- `registry_t::get` (src/src/registry.cpp:81-99): a read-only lookup
(a `const` member on an unchanged map) that throws "does not exists"
when the key is absent. -/
def reg_get (m : reg_map) (k : String) : Except String rlogger_t :=
  match reg_find m k with
  | some lg => Except.ok lg
  | none => Except.error ("Logger `" ++ k ++ "` does not exists.")

/-- `registry_t::contains` (src/src/registry.cpp:75-79): a non-throwing
existence probe. -/
def reg_contains (m : reg_map) (k : String) : Bool :=
  (reg_find m k).isSome

/-- The pad-character test of `registry_t::trim` with its default
`padchar = " "`. -/
def is_space (c : Char) : Bool := c = ' '

/-- Remove trailing spaces (the `find_last_not_of(" ")` half of the
`substr` in `registry_t::trim`). -/
def drop_trailing (s : List Char) : List Char :=
  (s.reverse.dropWhile is_space).reverse

/-- `registry_t::trim(s, " ")` (src/include/quire/registry.hpp:132-137):
`substr(find_first_not_of(" "), find_last_not_of(" ") - ... + 1)`, i.e.
the string with leading and trailing spaces removed, and `""` when every
character is a space. -/
def trim (s : List Char) : List Char :=
  drop_trailing (s.dropWhile is_space)

/-- `registry_t::lalign(s, width, fill)`
(src/include/quire/registry.hpp:144-148): append
`(width > s.length()) ? width - s.length() : 0` copies of `fill`
(truncated subtraction, exactly as the guarded C++ expression). -/
def lalign (s : List Char) (width : Nat) (fill : Char) : List Char :=
  s ++ List.replicate (width - s.length) fill

/-- The maximum trimmed-header length the first pass of
`adjust_header_length` computes (`max_length = std::max(max_length,
...)`, starting from 0, over the just-trimmed headers). -/
def max_trimmed_length (m : reg_map) : Nat :=
  m.foldl (fun acc kv => max acc (trim kv.2.header).length) 0

/-- `registry_t::adjust_header_length` (src/src/registry.cpp:397-410):
first pass trims every stored header (tracking the maximum resulting
length), second pass left-aligns every header to that maximum width with
trailing spaces. -/
def adjust_header_length (m : reg_map) : reg_map :=
  let trimmed := m.map (fun kv => (kv.1, { kv.2 with header := trim kv.2.header }))
  trimmed.map
    (fun kv => (kv.1, { kv.2 with header := lalign kv.2.header (max_trimmed_length m) ' ' }))

/-- `quire::create_logger` (src/include/quire/registry.hpp:170-180):
`registry.create(...)` followed — only when the create succeeded, since
a throw propagates — by `registry.adjust_header_length()`. -/
def create_logger (m : reg_map) (k : String) (h : List Char) (minl : Nat)
    (sep : Char) : Except String rlogger_t × reg_map :=
  match reg_create m k h minl sep with
  | (Except.ok lg, m2) => (Except.ok lg, adjust_header_length m2)
  | (Except.error e, m2) => (Except.error e, m2)

/-- `quire::remove_logger` (src/include/quire/registry.hpp:197-203):
`registry.remove(key)` followed — only on success — by
`registry.adjust_header_length()`. -/
def remove_logger (m : reg_map) (k : String) :
    Except String rlogger_t × reg_map :=
  match reg_remove m k with
  | (Except.ok lg, m2) => (Except.ok lg, adjust_header_length m2)
  | (Except.error e, m2) => (Except.error e, m2)

/-- The alignment invariant of claim C6: every stored header is its own
trimmed core padded with trailing spaces to the longest trimmed header
currently in the registry. -/
def aligned (m : reg_map) : Prop :=
  ∀ kv ∈ m, kv.2.header = lalign (trim kv.2.header) (max_trimmed_length m) ' '

/-!  Helper lemmas about the line splitter. -/

/-- The final-fragment indicator: what the tail contributes to the number
of emissions, given the text `s` still to scan and the pending text `acc`
of the current fragment. -/
def tail_flag (s acc : List Char) : Nat :=
  match s.getLast? with
  | some c => if c = '\n' then 0 else 1
  | none => if acc = [] then 0 else 1

/-- A concrete logger for the incremental-logging scenario of claim C3:
header `"H"`, threshold 0, separator `'|'`, configuration showing only
the header (so the decorated prefix is `"H | "`). -/
def scenario_logger : logger_t := mk_logger "H".data 0 '|' [option_t.header]

/-- The first `log(L, "partial ")` call of the C3 scenario. -/
def scenario_step1 : logger_t × List (List Char) :=
  log scenario_logger 1
    (format_input.rendered (vsnprintf_result.ok "partial ".data))
    "01/01/25".data "12:00".data

/-- The second `log(L, "rest\n")` call of the C3 scenario, on the logger
state left by the first call. -/
def scenario_step2 : logger_t × List (List Char) :=
  log scenario_step1.1 1
    (format_input.rendered (vsnprintf_result.ok "rest\n".data))
    "01/01/25".data "12:00".data

/-- A concrete logger for the C7 instance: non-empty header but a
configuration `[level, location]` that does not include the header tag. -/
def c7_logger : logger_t :=
  mk_logger "HEADER".data 0 '|' [option_t.level, option_t.location]

/-- The maximum display-name length across the currently registered
levels (specification-side notion used by claim C8; the code instead
keeps a running maximum in `log_levels_max_name_length`). -/
def current_max_name_length
    (levels : List (Nat × log_level_config_t)) : Nat :=
  levels.foldl (fun acc kv => max acc kv.2.name.length) 0

/-- The registry state after creating headers `"X"` and `"LongHeader"`
through `create_logger`: both headers are padded to length 10. -/
def c6_m2 : reg_map :=
  [("a", ⟨"X         ".data, 0, '|'⟩), ("b", ⟨"LongHeader".data, 0, '|'⟩)]

/-- Decidable equality for `Except`, so that concrete registry outcomes
can be checked by `decide`. -/
instance instDecEqExcept {ε α : Type} [DecidableEq ε] [DecidableEq α] :
    DecidableEq (Except ε α) := fun a b =>
  match a, b with
  | Except.error e1, Except.error e2 =>
    if h : e1 = e2 then isTrue (by rw [h])
    else isFalse (by intro hh; cases hh; exact h rfl)
  | Except.error _, Except.ok _ => isFalse (by intro hh; cases hh)
  | Except.ok v1, Except.ok v2 =>
    if h : v1 = v2 then isTrue (by rw [h])
    else isFalse (by intro hh; cases hh; exact h rfl)
  | Except.ok _, Except.error _ => isFalse (by intro hh; cases hh)

theorem split_go_nil (acc : List Char) :
    split_go [] acc = if acc = [] then [] else [acc] := rfl

theorem split_go_cons (c : Char) (rest acc : List Char) :
    split_go (c :: rest) acc =
      if c = '\n' then (acc ++ [c]) :: split_go rest []
      else split_go rest (acc ++ [c]) := rfl

theorem tail_flag_of_ne_nil (s acc acc2 : List Char) (h : s ≠ []) :
    tail_flag s acc = tail_flag s acc2 := by
  cases hL : s.getLast? with
  | none => exact absurd (List.getLast?_eq_none_iff.mp hL) h
  | some c => simp [tail_flag, hL]

theorem tail_flag_cons_of_ne_nil (c : Char) (s acc acc2 : List Char)
    (h : s ≠ []) : tail_flag (c :: s) acc = tail_flag s acc2 := by
  cases s with
  | nil => exact absurd rfl h
  | cons d ds =>
    have : tail_flag (c :: d :: ds) acc = tail_flag (d :: ds) acc := by
      simp [tail_flag, List.getLast?_cons_cons]
    rw [this]
    exact tail_flag_of_ne_nil _ _ _ (by simp)

theorem split_go_length (s : List Char) : ∀ acc : List Char,
    (split_go s acc).length = s.count '\n' + tail_flag s acc := by
  induction s with
  | nil =>
    intro acc
    by_cases h : acc = [] <;> simp [split_go_nil, tail_flag, h]
  | cons c rest ih =>
    intro acc
    rw [split_go_cons]
    by_cases hc : c = '\n'
    · subst hc
      rw [if_pos rfl, List.length_cons, ih [], List.count_cons_self]
      have : tail_flag rest [] = tail_flag ('\n' :: rest) acc := by
        cases rest with
        | nil => simp [tail_flag]
        | cons d ds =>
          exact (tail_flag_cons_of_ne_nil '\n' (d :: ds) acc [] (by simp)).symm
      rw [this]; omega
    · rw [if_neg hc, ih (acc ++ [c]), List.count_cons_of_ne (Ne.symm hc)]
      have : tail_flag rest (acc ++ [c]) = tail_flag (c :: rest) acc := by
        cases rest with
        | nil => simp [tail_flag, hc]
        | cons d ds =>
          exact (tail_flag_cons_of_ne_nil c (d :: ds) acc (acc ++ [c]) (by simp)).symm
      rw [this]

theorem split_go_flatten (s : List Char) : ∀ acc : List Char,
    (split_go s acc).flatten = acc ++ s := by
  induction s with
  | nil => intro acc; by_cases h : acc = [] <;> simp [split_go_nil, h]
  | cons c rest ih =>
    intro acc
    rw [split_go_cons]
    by_cases hc : c = '\n'
    · subst hc; simp [ih []]
    · rw [if_neg hc, ih (acc ++ [c])]; simp

theorem split_go_mem (s : List Char) : ∀ acc f, '\n' ∉ acc →
    f ∈ split_go s acc → f ≠ [] ∧ '\n' ∉ f.dropLast := by
  induction s with
  | nil =>
    intro acc f hacc hf
    rw [split_go_nil] at hf
    by_cases h : acc = []
    · simp [h] at hf
    · rw [if_neg h, List.mem_singleton] at hf
      subst hf
      exact ⟨h, fun hmem => hacc ((List.dropLast_sublist f).subset hmem)⟩
  | cons c rest ih =>
    intro acc f hacc hf
    rw [split_go_cons] at hf
    by_cases hc : c = '\n'
    · subst hc
      rw [if_pos rfl, List.mem_cons] at hf
      rcases hf with heq | hf
      · subst heq
        refine ⟨by simp, ?_⟩
        rw [List.dropLast_concat]
        exact hacc
      · exact ih [] f (by simp) hf
    · rw [if_neg hc] at hf
      refine ih (acc ++ [c]) f ?_ hf
      intro hmem
      rcases List.mem_append.mp hmem with h1 | h1
      · exact hacc h1
      · rw [List.mem_singleton] at h1; exact hc h1.symm

theorem split_go_dropLast (s : List Char) : ∀ acc f,
    f ∈ (split_go s acc).dropLast → f.getLast? = some '\n' := by
  induction s with
  | nil =>
    intro acc f hf
    rw [split_go_nil] at hf
    by_cases h : acc = [] <;> simp [h] at hf
  | cons c rest ih =>
    intro acc f hf
    rw [split_go_cons] at hf
    by_cases hc : c = '\n'
    · subst hc
      rw [if_pos rfl] at hf
      cases hL : split_go rest [] with
      | nil => rw [hL] at hf; simp at hf
      | cons y ys =>
        rw [hL, List.dropLast_cons₂, List.mem_cons] at hf
        rcases hf with heq | hf
        · subst heq; exact List.getLast?_concat _
        · exact ih [] f (by rw [hL]; exact hf)
    · rw [if_neg hc] at hf
      exact ih (acc ++ [c]) f hf

theorem write_fragments_length (level : log_level_config_t)
    (location date time : List Char) :
    ∀ (fs : List (List Char)) (lg : logger_t),
      (write_fragments level location date time lg fs).2.length = fs.length := by
  intro fs
  induction fs with
  | nil => intro lg; rfl
  | cons f fs ih =>
    intro lg
    simp [write_fragments, ih]

/-- Claim C2: for every formatted message buffer, `write_log` performs
one emission per occurrence of `'\n'` — the fragments partition the
buffer, each fragment is non-empty and contains no newline before its
last character, and every fragment other than the final one ends with
its newline — plus one final emission exactly when a non-empty tail
remains after the last newline; `"a\nb\nc"` yields exactly 3 emissions
and an empty buffer yields zero. -/
theorem C2_line_splitting :
    (∀ (lg : logger_t) (level : log_level_config_t)
        (location date time : List Char),
        (write_log lg level location date time).2.length =
          (split_fragments lg.buffer).length)
    ∧ (∀ s : List Char,
        (split_fragments s).length =
          s.count '\n' + (if s ≠ [] ∧ s.getLast? ≠ some '\n' then 1 else 0)
      ∧ (split_fragments s).flatten = s
      ∧ (∀ f ∈ split_fragments s, f ≠ [] ∧ '\n' ∉ f.dropLast)
      ∧ (∀ f ∈ (split_fragments s).dropLast, f.getLast? = some '\n'))
    ∧ (split_fragments "a\nb\nc".data).length = 3
    ∧ split_fragments ([] : List Char) = [] := by
  refine ⟨fun lg level location date time =>
    write_fragments_length level location date time (split_fragments lg.buffer) lg,
    fun s => ⟨?_, ?_, ?_, ?_⟩, by decide, rfl⟩
  · rw [split_fragments, split_go_length]
    congr 1
    cases hL : s.getLast? with
    | none =>
      have : s = [] := List.getLast?_eq_none_iff.mp hL
      simp [tail_flag, hL, this]
    | some c =>
      have hs : s ≠ [] := by
        intro h; subst h; simp at hL
      by_cases hc : c = '\n' <;> simp [tail_flag, hL, hc, hs]
  · rw [split_fragments, split_go_flatten]; rfl
  · exact fun f hf => split_go_mem s [] f (by simp) hf
  · exact fun f hf => split_go_dropLast s [] f hf

/-- Witness for C2 at the concrete buffer `"a\nb\nc"` and the concrete
fragment `"a\n"`. -/
theorem C2_line_splitting_witness :
    ("a\n".data ≠ [] ∧ '\n' ∉ "a\n".data.dropLast) ∧
      "a\n".data.getLast? = some '\n' :=
  ⟨(C2_line_splitting.2.1 "a\nb\nc".data).2.2.1 "a\n".data (by decide),
   (C2_line_splitting.2.1 "a\nb\nc".data).2.2.2 "a\n".data (by decide)⟩

/-- Claim C3: an emission is decorated (the prefix is built) exactly when
the logger's "last emission ended with newline" flag is set at that
point; after a non-empty fragment the flag becomes "last character is
`'\n'` or `'\r'`" (and an empty fragment leaves it unchanged); the flag
persists across `log` calls, so `log(L, "partial ")` followed by
`log(L, "rest\n")` yields a decorated `"H | partial "` emission and an
undecorated `"rest\n"` emission. -/
theorem C3_newline_flag :
    (∀ (lg : logger_t) (level : log_level_config_t)
        (location line date time : List Char),
        (write_log_line lg level location line date time).1 =
          (if lg.last_log_ended_with_newline then
              build_decoration lg level location date time
            else []) ++ line
      ∧ (line ≠ [] →
          (write_log_line lg level location line date time).2 =
            ((line.getLast? == some '\n') || (line.getLast? == some '\r')))
      ∧ (line = [] →
          (write_log_line lg level location line date time).2 =
            lg.last_log_ended_with_newline))
    ∧ scenario_logger.last_log_ended_with_newline = true
    ∧ scenario_step1.2 = ["H | partial ".data]
    ∧ scenario_step1.1.last_log_ended_with_newline = false
    ∧ scenario_step2.2 = ["rest\n".data]
    ∧ scenario_step2.1.last_log_ended_with_newline = true := by
  refine ⟨fun lg level location line date time => ⟨?_, ?_, ?_⟩,
    by decide, by decide, by decide, by decide, by decide⟩
  · by_cases h : line = [] <;> simp [write_log_line, h]
  · intro h; simp [write_log_line, h]
  · intro h; simp [write_log_line, h]

/-- Witness for C3's hypotheses at a concrete non-empty and a concrete
empty fragment. -/
theorem C3_newline_flag_witness :
    (write_log_line scenario_logger ⟨"INFO".data, [], []⟩ [] "x\r".data
        "01/01/25".data "12:00".data).2 =
      (("x\r".data.getLast? == some '\n') ||
        ("x\r".data.getLast? == some '\r'))
    ∧ (write_log_line scenario_logger ⟨"INFO".data, [], []⟩ [] []
        "01/01/25".data "12:00".data).2 =
      scenario_logger.last_log_ended_with_newline :=
  ⟨((C3_newline_flag.1 scenario_logger ⟨"INFO".data, [], []⟩ [] "x\r".data
      "01/01/25".data "12:00".data).2.1 (by decide)),
   ((C3_newline_flag.1 scenario_logger ⟨"INFO".data, [], []⟩ [] []
      "01/01/25".data "12:00".data).2.2 rfl)⟩

theorem split_fragments_ne_nil (s : List Char) (h : s ≠ []) :
    split_fragments s ≠ [] := by
  intro hnil
  have hlen := split_go_length s []
  rw [split_fragments] at hnil
  rw [hnil] at hlen
  simp only [List.length_nil] at hlen
  cases hL : s.getLast? with
  | none => exact h (List.getLast?_eq_none_iff.mp hL)
  | some c =>
    by_cases hc : c = '\n'
    · subst hc
      have hmem : '\n' ∈ s := List.mem_of_getLast?_eq_some hL
      have hc1 : 0 < s.count '\n' := List.count_pos_iff.mpr hmem
      omega
    · have : tail_flag s [] = 1 := by simp [tail_flag, hL, hc]
      omega

/-- Claim C1 (amended): a `log` call — with or without file/line
location — is a silent no-op (state unchanged, no formatting, zero
emissions) whenever the level has no descriptor in the level map or
`level < min_level`; when both gating conditions hold, the call emits
one emission per line fragment of the formatted buffer, hence at least
one emission whenever the rendered message is non-empty.  (The original
"if and only if" fails only for an empty formatted message, which emits
nothing even though both conditions hold — see the counterexample.) -/
theorem C1_threshold_gating :
    (∀ (lg : logger_t) (level : Nat) (input : format_input)
        (file date time : List Char) (line : Int),
        (map_find lg.log_levels level = none ∨ level < lg.min_level) →
          log lg level input date time = (lg, []) ∧
          log_loc lg level file line input date time = (lg, []))
    ∧ (∀ (lg : logger_t) (level : Nat) (s date time : List Char),
        (map_find lg.log_levels level).isSome → lg.min_level ≤ level →
        s ≠ [] →
        (log lg level (format_input.rendered (vsnprintf_result.ok s))
            date time).2 ≠ []) := by
  constructor
  · intro lg level input file date time line hgate
    cases hfind : map_find lg.log_levels level with
    | none => exact ⟨by simp [log, hfind], by simp [log_loc, hfind]⟩
    | some desc =>
      have hlt : level < lg.min_level := by
        rcases hgate with h | h
        · rw [hfind] at h; cases h
        · exact h
      have : ¬ lg.min_level ≤ level := by omega
      exact ⟨by simp [log, hfind, this], by simp [log_loc, hfind, this]⟩
  · intro lg level s date time hfind hle hs
    cases hf : map_find lg.log_levels level with
    | none => rw [hf] at hfind; cases hfind
    | some desc =>
      simp only [log, hf, if_pos hle]
      have hbuf :
          (format_message lg (format_input.rendered (vsnprintf_result.ok s))).buffer
            = s := by
        have : 0 < s.length := List.length_pos.mpr hs
        simp [format_message, this]
      rw [write_log, hbuf]
      intro hnil
      have := write_fragments_length desc [] date time (split_fragments s)
        (format_message lg (format_input.rendered (vsnprintf_result.ok s)))
      rw [hnil] at this
      exact split_fragments_ne_nil s hs
        (List.length_eq_zero.mp this.symm)

/-- Counterexample to claim C1 as stated: on a default-constructed
logger, level 1 (INFO) has a registered descriptor and `1 ≥ min_level`,
yet `log(1, "")` (empty format string) produces zero emissions — output
is not produced even though both gating conditions hold, refuting the
"if and only if". -/
theorem C1_counterexample :
    (map_find (mk_logger "H".data 0 '|' default_configuration).log_levels
        1).isSome = true
    ∧ (mk_logger "H".data 0 '|' default_configuration).min_level ≤ 1
    ∧ (log (mk_logger "H".data 0 '|' default_configuration) 1
        format_input.empty_format "01/01/25".data "12:00".data).2 = [] := by
  refine ⟨by decide, by decide, by decide⟩

/-- Witness for C1: level 7 has no descriptor on a default logger, so the
call is a no-op; level 1 with the non-empty message `"msg"` emits. -/
theorem C1_threshold_gating_witness :
    log (mk_logger "H".data 0 '|' default_configuration) 7
        format_input.empty_format "01/01/25".data "12:00".data
      = (mk_logger "H".data 0 '|' default_configuration, [])
    ∧ (log (mk_logger "H".data 0 '|' default_configuration) 1
        (format_input.rendered (vsnprintf_result.ok "msg".data))
        "01/01/25".data "12:00".data).2 ≠ [] :=
  ⟨(C1_threshold_gating.1 (mk_logger "H".data 0 '|' default_configuration) 7
      format_input.empty_format "file.c".data "01/01/25".data "12:00".data 3
      (Or.inl (by decide))).1,
   C1_threshold_gating.2 (mk_logger "H".data 0 '|' default_configuration) 1
      "msg".data "01/01/25".data "12:00".data (by decide) (by decide)
      (by decide)⟩

theorem foldl_append_eq_flatten {α β : Type} (g : β → List α) :
    ∀ (l : List β) (init : List α),
      l.foldl (fun ss o => ss ++ g o) init = init ++ (l.map g).flatten := by
  intro l
  induction l with
  | nil => intro init; simp
  | cons o os ih => intro init; simp [ih]

theorem build_decoration_step (lg : logger_t) (level : log_level_config_t)
    (location date time : List Char) (ss : List Char) (opt : option_t) :
    (if opt = option_t.header ∧ lg.header ≠ [] then
        ss ++ lg.header ++ [' ', lg.separator, ' ']
      else if opt = option_t.level then
        ss ++ setw_left lg.log_levels_max_name_length level.name
           ++ [' ', lg.separator, ' ']
      else if opt = option_t.date then
        ss ++ date ++ [' ', lg.separator, ' ']
      else if opt = option_t.time then
        ss ++ time ++ [' ', lg.separator, ' ']
      else if opt = option_t.location ∧ location ≠ [] then
        ss ++ setw_left 16 location ++ [' ', lg.separator, ' ']
      else ss)
    = ss ++ render_field lg level location date time opt := by
  cases opt with
  | header =>
    by_cases h : lg.header = [] <;> simp [render_field, h, List.append_assoc]
  | level => simp [render_field, List.append_assoc]
  | date => simp [render_field, List.append_assoc]
  | time => simp [render_field, List.append_assoc]
  | location =>
    by_cases h : location = [] <;> simp [render_field, h, List.append_assoc]

theorem build_decoration_eq_flatten (lg : logger_t) (level : log_level_config_t)
    (location date time : List Char) :
    build_decoration lg level location date time =
      (lg.configuration.map (render_field lg level location date time)).flatten := by
  rw [build_decoration,
    List.foldl_ext _ (fun ss o => ss ++ render_field lg level location date time o)
      [] (fun a b _ => build_decoration_step lg level location date time a b),
    foldl_append_eq_flatten]
  simp

/-- Claim C7: the decorated prefix is the concatenation, in configuration
order, of the per-tag renderings (each field followed by a space, the
separator and a space), where the location tag renders nothing when the
supplied location string is empty and the header tag renders nothing
when the header is empty; consequently a configuration without the
header tag produces a prefix independent of the header text, as the
concrete `[level, location]` instances show. -/
theorem C7_prefix_field_order :
    (∀ (lg : logger_t) (level : log_level_config_t)
        (location date time : List Char),
        build_decoration lg level location date time =
          (lg.configuration.map
            (render_field lg level location date time)).flatten)
    ∧ (∀ (lg : logger_t) (level : log_level_config_t)
        (location date time h2 : List Char),
        option_t.header ∉ lg.configuration →
        build_decoration { lg with header := h2 } level location date time =
          build_decoration lg level location date time)
    ∧ build_decoration c7_logger ⟨"INFO".data, [], []⟩ "app.c:42".data
        "01/01/25".data "12:00".data =
      build_decoration { c7_logger with header := [] } ⟨"INFO".data, [], []⟩
        "app.c:42".data "01/01/25".data "12:00".data
    ∧ build_decoration c7_logger ⟨"INFO".data, [], []⟩ []
        "01/01/25".data "12:00".data =
      build_decoration { c7_logger with configuration := [option_t.level] }
        ⟨"INFO".data, [], []⟩ [] "01/01/25".data "12:00".data := by
  refine ⟨build_decoration_eq_flatten, ?_, by decide, by decide⟩
  intro lg level location date time h2 hmem
  rw [build_decoration_eq_flatten, build_decoration_eq_flatten]
  show ((lg.configuration).map _).flatten = _
  congr 1
  refine List.map_congr_left ?_
  intro o ho
  cases o with
  | header => exact absurd ho hmem
  | level => rfl
  | date => rfl
  | time => rfl
  | location => rfl

/-- Witness for C7's header-independence hypothesis at the concrete
`[level, location]` logger. -/
theorem C7_prefix_field_order_witness :
    build_decoration { c7_logger with header := "OTHER".data }
        ⟨"INFO".data, [], []⟩ "app.c:42".data "01/01/25".data "12:00".data =
      build_decoration c7_logger ⟨"INFO".data, [], []⟩ "app.c:42".data
        "01/01/25".data "12:00".data :=
  C7_prefix_field_order.2.1 c7_logger ⟨"INFO".data, [], []⟩ "app.c:42".data
    "01/01/25".data "12:00".data "OTHER".data (by decide)

theorem map_find_update (levels : List (Nat × log_level_config_t))
    (level : Nat) (c : log_level_config_t) :
    map_find (levels.map (fun kv => if kv.1 = level then (kv.1, c) else kv))
        level
      = (map_find levels level).map (fun _ => c) := by
  induction levels with
  | nil => rfl
  | cons kv rest ih =>
    by_cases h : kv.1 = level
    · simp [map_find, h]
    · simp [map_find, h, ih]

theorem map_find_update_ne (levels : List (Nat × log_level_config_t))
    (level l2 : Nat) (c : log_level_config_t) (hne : l2 ≠ level) :
    map_find (levels.map (fun kv => if kv.1 = level then (kv.1, c) else kv))
        l2
      = map_find levels l2 := by
  induction levels with
  | nil => rfl
  | cons kv rest ih =>
    by_cases h : kv.1 = level
    · have h2 : ¬(level = l2) := fun hh => hne hh.symm
      simp [map_find, h, h2, ih]
    · by_cases h2 : kv.1 = l2
      · simp [map_find, h, h2, hne, ih]
      · simp [map_find, h, h2, ih]

theorem map_find_append_none (levels : List (Nat × log_level_config_t))
    (level : Nat) (c : log_level_config_t)
    (h : map_find levels level = none) :
    map_find (levels ++ [(level, c)]) level = some c := by
  induction levels with
  | nil => simp [map_find]
  | cons kv rest ih =>
    by_cases hh : kv.1 = level
    · simp [map_find, hh] at h
    · simp only [map_find, hh, if_neg hh] at h
      simpa [map_find, hh] using ih h

theorem map_find_append_ne (levels : List (Nat × log_level_config_t))
    (level l2 : Nat) (c : log_level_config_t) (hne : l2 ≠ level) :
    map_find (levels ++ [(level, c)]) l2 = map_find levels l2 := by
  induction levels with
  | nil =>
    have h2 : ¬(level = l2) := fun h => hne h.symm
    simp [map_find, h2]
  | cons kv rest ih => by_cases hh : kv.1 = l2 <;> simp [map_find, hh, ih]

theorem foldl_max_le_of (l : List (Nat × log_level_config_t)) (B : Nat)
    (hB : ∀ kv ∈ l, kv.2.name.length ≤ B) :
    ∀ a, a ≤ B →
      l.foldl (fun acc kv => max acc kv.2.name.length) a ≤ B := by
  induction l with
  | nil => intro a ha; exact ha
  | cons kv rest ih =>
    intro a ha
    refine ih (fun x hx => hB x (List.mem_cons_of_mem _ hx)) _ ?_
    exact Nat.max_le.mpr ⟨ha, hB kv (List.mem_cons_self _ _)⟩

theorem le_foldl_max (l : List (Nat × log_level_config_t)) :
    ∀ a, a ≤ l.foldl (fun acc kv => max acc kv.2.name.length) a := by
  induction l with
  | nil => intro a; exact Nat.le_refl a
  | cons kv rest ih =>
    intro a
    exact Nat.le_trans (Nat.le_max_left a kv.2.name.length) (ih _)

theorem mem_le_foldl_max (l : List (Nat × log_level_config_t))
    (kv : Nat × log_level_config_t) (h : kv ∈ l) :
    ∀ a, kv.2.name.length ≤
      l.foldl (fun acc kv => max acc kv.2.name.length) a := by
  induction l with
  | nil => cases h
  | cons kv2 rest ih =>
    intro a
    rcases List.mem_cons.mp h with heq | hmem
    · subst heq
      exact Nat.le_trans (Nat.le_max_right a kv.2.name.length)
        (le_foldl_max rest _)
    · exact ih hmem _

theorem current_max_update_le (levels : List (Nat × log_level_config_t))
    (level : Nat) (c : log_level_config_t) :
    current_max_name_length
        (levels.map (fun kv => if kv.1 = level then (kv.1, c) else kv))
      ≤ max (current_max_name_length levels) c.name.length := by
  refine foldl_max_le_of _ _ ?_ 0 (Nat.zero_le _)
  intro kv hkv
  rcases List.mem_map.mp hkv with ⟨kv0, hkv0, heq⟩
  by_cases h : kv0.1 = level
  · rw [if_pos h] at heq
    subst heq
    exact Nat.le_trans (Nat.le_refl _) (Nat.le_max_right _ _)
  · rw [if_neg h] at heq
    subst heq
    exact Nat.le_trans (mem_le_foldl_max levels kv0 hkv0 0)
      (Nat.le_max_left _ _)

theorem current_max_append (levels : List (Nat × log_level_config_t))
    (level : Nat) (c : log_level_config_t) :
    current_max_name_length (levels ++ [(level, c)])
      = max (current_max_name_length levels) c.name.length := by
  rw [current_max_name_length, List.foldl_append]
  rfl

/-- Counterexample to claim C8 as stated: registering name `"AB"` for
level 1 and then updating level 1 to the shorter name `"A"` leaves the
tracked maximum at 2, while the maximum name length across the currently
registered levels is 1 — the tracked value is not recomputed on update.
(The C++ function also returns `*this`, not the update flag its header
comment promises.) -/
theorem C8_counterexample :
    (((mk_logger [] 0 '|' []).clear_log_levels.add_or_update_log_level
        1 "AB".data [] []).add_or_update_log_level
        1 "A".data [] []).log_levels_max_name_length = 2
    ∧ current_max_name_length
        (((mk_logger [] 0 '|' []).clear_log_levels.add_or_update_log_level
            1 "AB".data [] []).add_or_update_log_level
            1 "A".data [] []).log_levels = 1 := by
  exact ⟨by decide, by decide⟩

/-- Claim C8 (amended): `add_or_update_log_level` stores the descriptor
`{name, fg, bg}` for the level (overwriting in place when present,
inserting when absent) and leaves every other level's descriptor
unchanged; it returns the logger itself (for chaining), not the update
flag; and the tracked maximum display-name length becomes the maximum of
its previous value and the new name's length — a running maximum that
always bounds, but after an update with a shorter name can exceed, the
maximum name length across currently registered levels. -/
theorem C8_add_or_update_level :
    ∀ (lg : logger_t) (level : Nat) (name fg bg : List Char),
      map_find (lg.add_or_update_log_level level name fg bg).log_levels
          level = some ⟨name, fg, bg⟩
      ∧ (∀ l2, l2 ≠ level →
          map_find (lg.add_or_update_log_level level name fg bg).log_levels
              l2 = map_find lg.log_levels l2)
      ∧ (lg.add_or_update_log_level level name fg bg).log_levels_max_name_length
          = max lg.log_levels_max_name_length name.length
      ∧ current_max_name_length
          (lg.add_or_update_log_level level name fg bg).log_levels
          ≤ max (current_max_name_length lg.log_levels) name.length := by
  intro lg level name fg bg
  cases hf : map_find lg.log_levels level with
  | some d =>
    refine ⟨?_, ?_, ?_, ?_⟩
    · simp only [logger_t.add_or_update_log_level, hf]
      rw [map_find_update, hf]; rfl
    · intro l2 h
      simp only [logger_t.add_or_update_log_level, hf]
      exact map_find_update_ne lg.log_levels level l2 ⟨name, fg, bg⟩ h
    · simp [logger_t.add_or_update_log_level, hf]
    · simp only [logger_t.add_or_update_log_level, hf]
      exact current_max_update_le lg.log_levels level ⟨name, fg, bg⟩
  | none =>
    refine ⟨?_, ?_, ?_, ?_⟩
    · simp only [logger_t.add_or_update_log_level, hf]
      exact map_find_append_none lg.log_levels level ⟨name, fg, bg⟩ hf
    · intro l2 h
      simp only [logger_t.add_or_update_log_level, hf]
      exact map_find_append_ne lg.log_levels level l2 ⟨name, fg, bg⟩ h
    · simp [logger_t.add_or_update_log_level, hf]
    · simp only [logger_t.add_or_update_log_level, hf]
      exact Nat.le_of_eq
        (current_max_append lg.log_levels level ⟨name, fg, bg⟩)

/-- Witness for C8's amended theorem: inserting level 9 leaves level 0's
descriptor unchanged on a default logger. -/
theorem C8_add_or_update_level_witness :
    map_find ((mk_logger [] 0 '|' []).add_or_update_log_level
        9 "NOTICE".data [] []).log_levels 0
      = map_find (mk_logger [] 0 '|' []).log_levels 0 :=
  (C8_add_or_update_level (mk_logger [] 0 '|' []) 9 "NOTICE".data [] []).2.1
    0 (by decide)

/-- Counterexample to claim C4 as stated: in the `char *` buffer revision
(`logger_t::format_message` in src/src/quire.cpp), a negative `vsnprintf`
return does NOT clear the buffer — the `if (length > 0)` guard merely
skips rendering.  After a previous message `"hello"`, a rendering failure
leaves the buffer still `"hello"`, not the empty message the claim
requires for every such input. -/
theorem C4_counterexample :
    (format_message
        (format_message (mk_logger [] 0 '|' [])
          (format_input.rendered (vsnprintf_result.ok "hello".data)))
        (format_input.rendered vsnprintf_result.failure)).buffer
      = "hello".data
    ∧ "hello".data ≠ ([] : List Char) := by
  exact ⟨by decide, by decide⟩

/-- Claim C4 (amended): an empty or null template makes the buffer empty
in both revisions of `format_message`, and a rendering failure (negative
required length) is never raised as an error — both calls return
normally — but only the `std::string` revision (quire.hpp) clears the
buffer on failure; the `char *` revision (quire.cpp) leaves the logger
state, buffer included, entirely unchanged (and likewise for a rendered
length of zero), so the stale previous message is retained. -/
theorem C4_format_message :
    ∀ (lg : logger_t) (s : List Char),
      (format_message lg format_input.empty_format).buffer = []
      ∧ format_message lg (format_input.rendered vsnprintf_result.failure)
          = lg
      ∧ format_message lg (format_input.rendered (vsnprintf_result.ok []))
          = lg
      ∧ (s ≠ [] →
          (format_message lg
            (format_input.rendered (vsnprintf_result.ok s))).buffer = s)
      ∧ (format_message_hpp lg format_input.empty_format).buffer = []
      ∧ (format_message_hpp lg
          (format_input.rendered vsnprintf_result.failure)).buffer = []
      ∧ (format_message_hpp lg
          (format_input.rendered (vsnprintf_result.ok s))).buffer = s := by
  intro lg s
  refine ⟨rfl, rfl, by simp [format_message], ?_, rfl, rfl, rfl⟩
  intro hs
  simp [format_message, List.length_pos.mpr hs]

/-- Witness for C4's non-empty-message hypothesis at `"msg"`. -/
theorem C4_format_message_witness :
    (format_message (mk_logger [] 0 '|' [])
        (format_input.rendered (vsnprintf_result.ok "msg".data))).buffer
      = "msg".data :=
  (C4_format_message (mk_logger [] 0 '|' []) "msg".data).2.2.2.1 (by decide)

theorem reg_find_eq_none_iff (m : reg_map) (k : String) :
    reg_find m k = none ↔ k ∉ m.map Prod.fst := by
  induction m with
  | nil => simp [reg_find]
  | cons kv rest ih =>
    by_cases h : kv.1 = k
    · simp [reg_find, h]
    · simp [reg_find, h, ih, Ne.symm h]

/-- Claim C5: `create` fails with the "already exists" error exactly when
the key is present and otherwise inserts the new logger and returns it;
`remove` and `get` fail with the "does not exists" error exactly when the
key is absent; `contains` never fails and returns whether the key is
present. -/
theorem C5_registry_ops :
    ∀ (m : reg_map) (k : String) (h : List Char) (minl : Nat) (sep : Char),
      (k ∈ m.map Prod.fst →
        reg_create m k h minl sep =
          (Except.error ("Logger `" ++ k ++ "` already exists."), m))
      ∧ (k ∉ m.map Prod.fst →
        reg_create m k h minl sep =
          (Except.ok ⟨h, minl, sep⟩, m ++ [(k, ⟨h, minl, sep⟩)]))
      ∧ ((reg_remove m k).1 =
            Except.error ("Logger `" ++ k ++ "` does not exists.")
          ↔ k ∉ m.map Prod.fst)
      ∧ (reg_get m k =
            Except.error ("Logger `" ++ k ++ "` does not exists.")
          ↔ k ∉ m.map Prod.fst)
      ∧ (reg_contains m k = true ↔ k ∈ m.map Prod.fst) := by
  intro m k h minl sep
  cases hf : reg_find m k with
  | some lg =>
    have hmem : k ∈ m.map Prod.fst := by
      by_contra hnot
      rw [← reg_find_eq_none_iff] at hnot
      rw [hf] at hnot
      cases hnot
    refine ⟨fun _ => by simp [reg_create, hf], fun hn => absurd hmem hn,
      ?_, ?_, ?_⟩
    · simp [reg_remove, hf, hmem]
    · simp [reg_get, hf, hmem]
    · simp [reg_contains, hf, hmem]
  | none =>
    have hnot : k ∉ m.map Prod.fst := (reg_find_eq_none_iff m k).mp hf
    refine ⟨fun hmem => absurd hmem hnot,
      fun _ => by simp [reg_create, hf], ?_, ?_, ?_⟩
    · simp [reg_remove, hf, hnot]
    · simp [reg_get, hf, hnot]
    · simp [reg_contains, hf, hnot]

/-- Witness for C5 at a concrete one-entry registry: re-creating key
`"a"` fails with the "already exists" error, creating `"b"` succeeds,
removing the absent `"b"` fails, and `contains` reports presence. -/
theorem C5_registry_ops_witness :
    reg_create [("a", ⟨"X".data, 0, '|'⟩)] "a" "Y".data 0 '|' =
      (Except.error ("Logger `" ++ "a" ++ "` already exists."),
        [("a", ⟨"X".data, 0, '|'⟩)])
    ∧ reg_create [("a", ⟨"X".data, 0, '|'⟩)] "b" "Y".data 0 '|' =
      (Except.ok ⟨"Y".data, 0, '|'⟩,
        [("a", ⟨"X".data, 0, '|'⟩), ("b", ⟨"Y".data, 0, '|'⟩)])
    ∧ ((reg_remove [("a", (⟨"X".data, 0, '|'⟩ : rlogger_t))] "b").1 =
        Except.error ("Logger `" ++ "b" ++ "` does not exists."))
    ∧ reg_contains [("a", (⟨"X".data, 0, '|'⟩ : rlogger_t))] "a" = true :=
  ⟨(C5_registry_ops [("a", ⟨"X".data, 0, '|'⟩)] "a" "Y".data 0 '|').1
      (by decide),
   (C5_registry_ops [("a", ⟨"X".data, 0, '|'⟩)] "b" "Y".data 0 '|').2.1
      (by decide),
   ((C5_registry_ops [("a", ⟨"X".data, 0, '|'⟩)] "b" "Y".data 0 '|').2.2.1).mpr
      (by decide),
   ((C5_registry_ops [("a", ⟨"X".data, 0, '|'⟩)] "a" "Y".data 0 '|').2.2.2.2).mpr
      (by decide)⟩

/-- Claim C9: a `create` rejected because the key exists, and a `remove`
or `get` rejected because the key is absent, throw before any mutation:
the registry map after the failed call equals the map before it (`get` is
a `const` member and is modelled as a pure read; the wrapped
`create_logger`/`remove_logger` skip the alignment pass when the inner
call throws). -/
theorem C9_error_atomicity :
    ∀ (m : reg_map) (k : String) (h : List Char) (minl : Nat) (sep : Char)
      (e : String),
      ((reg_create m k h minl sep).1 = Except.error e →
        (reg_create m k h minl sep).2 = m)
      ∧ ((reg_remove m k).1 = Except.error e → (reg_remove m k).2 = m)
      ∧ ((create_logger m k h minl sep).1 = Except.error e →
        (create_logger m k h minl sep).2 = m)
      ∧ ((remove_logger m k).1 = Except.error e →
        (remove_logger m k).2 = m) := by
  intro m k h minl sep e
  cases hf : reg_find m k with
  | some lg =>
    refine ⟨fun _ => by simp [reg_create, hf], ?_, fun _ => ?_, ?_⟩
    · intro hcontra
      simp [reg_remove, hf] at hcontra
    · simp [create_logger, reg_create, hf]
    · intro hcontra
      simp [remove_logger, reg_remove, hf] at hcontra
  | none =>
    refine ⟨?_, fun _ => by simp [reg_remove, hf], ?_, fun _ => ?_⟩
    · intro hcontra
      simp [reg_create, hf] at hcontra
    · intro hcontra
      simp [create_logger, reg_create, hf] at hcontra
    · simp [remove_logger, reg_remove, hf]

/-- Witness for C9 at concrete failing calls: re-creating the existing
key `"a"` and removing the absent key `"b"` both leave the map intact. -/
theorem C9_error_atomicity_witness :
    (reg_create [("a", ⟨"X".data, 0, '|'⟩)] "a" "Y".data 0 '|').2 =
      [("a", (⟨"X".data, 0, '|'⟩ : rlogger_t))]
    ∧ (reg_remove [("a", ⟨"X".data, 0, '|'⟩)] "b").2 =
      [("a", (⟨"X".data, 0, '|'⟩ : rlogger_t))] :=
  ⟨(C9_error_atomicity [("a", ⟨"X".data, 0, '|'⟩)] "a" "Y".data 0 '|'
      ("Logger `" ++ "a" ++ "` already exists.")).1 (by decide),
   (C9_error_atomicity [("a", ⟨"X".data, 0, '|'⟩)] "b" "Y".data 0 '|'
      ("Logger `" ++ "b" ++ "` does not exists.")).2.1 (by decide)⟩

theorem drop_trailing_decomp (l : List Char) :
    l = drop_trailing l
      ++ List.replicate (l.reverse.takeWhile is_space).length ' ' := by
  have hsp : ∀ x ∈ (l.reverse.takeWhile is_space).reverse, x = ' ' := by
    intro x hx
    rw [List.mem_reverse] at hx
    have := List.mem_takeWhile_imp hx
    simpa [is_space] using this
  have hrep : (l.reverse.takeWhile is_space).reverse
      = List.replicate (l.reverse.takeWhile is_space).reverse.length ' ' :=
    List.eq_replicate_of_mem hsp
  calc l = l.reverse.reverse := (List.reverse_reverse l).symm
  _ = ((l.reverse.takeWhile is_space)
        ++ (l.reverse.dropWhile is_space)).reverse := by
      rw [List.takeWhile_append_dropWhile]
  _ = (l.reverse.dropWhile is_space).reverse
        ++ (l.reverse.takeWhile is_space).reverse := by
      rw [List.reverse_append]
  _ = drop_trailing l
        ++ List.replicate (l.reverse.takeWhile is_space).length ' ' := by
      rw [drop_trailing, hrep, List.length_reverse]

theorem head?_dropWhile_not_space (l : List Char) (c : Char)
    (h : (l.dropWhile is_space).head? = some c) : c ≠ ' ' := by
  induction l with
  | nil => simp [List.dropWhile] at h
  | cons d rest ih =>
    by_cases hd : is_space d
    · rw [List.dropWhile_cons_of_pos hd] at h
      exact ih h
    · rw [List.dropWhile_cons_of_neg hd] at h
      rw [List.head?_cons, Option.some_inj] at h
      subst h
      simpa [is_space] using hd

theorem getLast?_drop_trailing (l : List Char) (c : Char)
    (h : (drop_trailing l).getLast? = some c) : c ≠ ' ' := by
  rw [drop_trailing, List.getLast?_reverse] at h
  exact head?_dropWhile_not_space _ _ h

theorem head?_trim (s : List Char) (c : Char)
    (h : (trim s).head? = some c) : c ≠ ' ' := by
  refine head?_dropWhile_not_space s c ?_
  rw [drop_trailing_decomp (s.dropWhile is_space), List.head?_append]
  have : (trim s).head? = some c := h
  rw [trim] at this
  rw [this]
  rfl

theorem dropWhile_replicate_space (n : Nat) :
    (List.replicate n ' ').dropWhile is_space = [] := by
  induction n with
  | zero => rfl
  | succ n ih =>
    rw [List.replicate_succ, List.dropWhile_cons_of_pos (by decide)]
    exact ih

theorem trim_append_replicate (s : List Char) (n : Nat) :
    trim (trim s ++ List.replicate n ' ') = trim s := by
  cases htrim : trim s with
  | nil =>
    simp only [List.nil_append]
    rw [trim, dropWhile_replicate_space]
    rfl
  | cons c t =>
    have hc : c ≠ ' ' := head?_trim s c (by rw [htrim]; rfl)
    have hlast : ∀ d, (c :: t).getLast? = some d → d ≠ ' ' := by
      intro d hd
      refine getLast?_drop_trailing (s.dropWhile is_space) d ?_
      rw [show drop_trailing (s.dropWhile is_space) = trim s from rfl, htrim]
      exact hd
    have h1 : ((c :: t) ++ List.replicate n ' ').dropWhile is_space
        = (c :: t) ++ List.replicate n ' ' := by
      rw [List.cons_append, List.dropWhile_cons_of_neg (by simp [is_space, hc])]
    have h2 : drop_trailing ((c :: t) ++ List.replicate n ' ') = c :: t := by
      rw [drop_trailing, List.reverse_append, List.reverse_replicate]
      rw [List.dropWhile_append_of_pos (by
        intro a ha
        rw [List.mem_replicate] at ha
        simp [is_space, ha.2])]
      cases hrev : (c :: t).reverse with
      | nil => exact absurd hrev (by simp)
      | cons d ds =>
        have hd : d ≠ ' ' := by
          refine hlast d ?_
          rw [← List.head?_reverse, hrev]
          rfl
        rw [List.dropWhile_cons_of_neg (by simp [is_space, hd])]
        rw [← hrev, List.reverse_reverse]
    rw [trim, h1, h2]

theorem trim_lalign_trim (x : List Char) (w : Nat) :
    trim (lalign (trim x) w ' ') = trim x :=
  trim_append_replicate x (w - (trim x).length)

theorem adjust_eq (m : reg_map) :
    adjust_header_length m = m.map (fun kv =>
      (kv.1,
        { kv.2 with
          header := lalign (trim kv.2.header) (max_trimmed_length m) ' ' })) := by
  simp only [adjust_header_length, List.map_map]
  rfl

theorem max_trimmed_adjust (m : reg_map) :
    max_trimmed_length (adjust_header_length m) = max_trimmed_length m := by
  rw [adjust_eq]
  rw [max_trimmed_length, List.foldl_map, max_trimmed_length]
  refine List.foldl_ext _ _ 0 ?_
  intro a kv _
  show max a (trim (lalign (trim kv.2.header) (max_trimmed_length m) ' ')).length
      = max a (trim kv.2.header).length
  rw [trim_lalign_trim]

theorem aligned_adjust (m : reg_map) : aligned (adjust_header_length m) := by
  intro kv hkv
  rw [max_trimmed_adjust]
  rw [adjust_eq] at hkv
  rcases List.mem_map.mp hkv with ⟨kv0, _, heq⟩
  subst heq
  show lalign (trim kv0.2.header) (max_trimmed_length m) ' '
      = lalign (trim (lalign (trim kv0.2.header) (max_trimmed_length m) ' '))
          (max_trimmed_length m) ' '
  rw [trim_lalign_trim]

/-- Claim C10: `adjust_header_length` is idempotent — the trim-then-pad
alignment pass applied twice yields exactly the registry state it yields
when applied once (re-trimming an already trimmed-and-padded header
recovers the same trimmed core and the same maximum width). -/
theorem C10_adjust_idempotent :
    ∀ m : reg_map,
      adjust_header_length (adjust_header_length m) = adjust_header_length m := by
  intro m
  conv_lhs => rw [adjust_eq (adjust_header_length m)]
  rw [max_trimmed_adjust]
  conv_lhs => rw [adjust_eq m]
  conv_rhs => rw [adjust_eq m]
  rw [List.map_map]
  refine List.map_congr_left ?_
  intro kv _
  show (kv.1,
      { kv.2 with
        header := lalign
          (trim (lalign (trim kv.2.header) (max_trimmed_length m) ' '))
          (max_trimmed_length m) ' ' })
    = (kv.1,
      { kv.2 with
        header := lalign (trim kv.2.header) (max_trimmed_length m) ' ' })
  rw [trim_lalign_trim]

/-- Claim C6: after every successful `create_logger` and `remove_logger`
(the wrappers that run the alignment pass), every stored header equals
its own trimmed core left-padded with trailing spaces to the length of
the longest trimmed header currently in the registry — trimming first,
so padding cannot accumulate across create/remove cycles. -/
theorem C6_header_alignment :
    (∀ (m : reg_map) (k : String) (h : List Char) (minl : Nat) (sep : Char)
        (lg : rlogger_t) (m2 : reg_map),
        create_logger m k h minl sep = (Except.ok lg, m2) → aligned m2)
    ∧ (∀ (m : reg_map) (k : String) (lg : rlogger_t) (m2 : reg_map),
        remove_logger m k = (Except.ok lg, m2) → aligned m2) := by
  constructor
  · intro m k h minl sep lg m2 hcl
    cases hf : reg_find m k with
    | some v => simp [create_logger, reg_create, hf] at hcl
    | none =>
      simp [create_logger, reg_create, hf] at hcl
      rw [← hcl.2]
      exact aligned_adjust _
  · intro m k lg m2 hcl
    cases hf : reg_find m k with
    | some v =>
      simp [remove_logger, reg_remove, hf] at hcl
      rw [← hcl.2]
      exact aligned_adjust _
    | none => simp [remove_logger, reg_remove, hf] at hcl

/-- Witness for C6: creating `"LongHeader"` next to an existing `"X"`
leaves both stored headers aligned, each of length 10. -/
theorem C6_header_alignment_witness :
    aligned c6_m2
    ∧ c6_m2.map (fun kv => kv.2.header.length) = [10, 10] :=
  ⟨C6_header_alignment.1 [("a", ⟨"X".data, 0, '|'⟩)] "b" "LongHeader".data
      0 '|' ⟨"LongHeader".data, 0, '|'⟩ c6_m2 (by decide),
   by decide⟩

end Quire
